import Mathlib

/-
Shallow embedding of the request-validation layer of the td-ameritrade API
client (src/td/models/rest/query.py), together with models of the helpers it
calls that live outside the provided sources (the enum domains in
td/enums/enums.py, BaseApiModel.validate_str_enum, validate_iso_date_field and
td/utils/helpers.convert_to_unix_time_ms).

Pydantic v2 semantics reflected by the embedding:
- model fields are validated in declaration order;
- info.data passed to a field validator contains every earlier field,
  including fields that were absent and received their (unvalidated) default;
- the field currently being validated is never a key of info.data;
- a field that is absent from the input takes its default without running
  any of its validators;
- several validators on the same field run in definition order, each
  receiving the value returned by the previous validator; the last one is stored.

Field values that the caller did not supply are modelled as none at the
input-record level; an input record therefore distinguishes an absent field
from a supplied value.  Validation is modelled in the Except monad with the
first failing validator aborting the record (the implementation documents
short-circuit behaviour; for the properties below the distinction from
error collection is immaterial since they concern success or a single error).
-/

namespace TDQuery

/-- Outcome of a failed validation: ValueError raised inside a field
validator (pydantic attaches the field name as the error location),
InvalidEnumValue and InvalidDateFormat produced by the shared normalizers,
and the raw Python TypeError and KeyError exceptions that a validator can
let escape. -/
inductive VErr where
  | valueError (field : String) (msg : String)
  | invalidEnumValue (field : String) (offending : String) (accepted : List String)
  | invalidDateFormat (field : String) (offending : String)
  | typeError (msg : String)
  | keyError (key : String)
deriving DecidableEq, Repr

/-- Decidable equality of validation outcomes, so that concrete runs of the
validators can be checked by evaluation. -/
instance {ε α : Type} [DecidableEq ε] [DecidableEq α] : DecidableEq (Except ε α) := fun x y =>
  match x, y with
  | .ok a, .ok b =>
    if h : a = b then .isTrue (h ▸ rfl) else .isFalse (fun c => h (Except.ok.inj c))
  | .error a, .error b =>
    if h : a = b then .isTrue (h ▸ rfl) else .isFalse (fun c => h (Except.error.inj c))
  | .ok _, .error _ => .isFalse (fun c => Except.noConfusion c)
  | .error _, .ok _ => .isFalse (fun c => Except.noConfusion c)

/-- A raw value for an enum-typed field: either a string or a native member. -/
inductive EnumInput (α : Type) where
  | str (s : String)
  | member (e : α)
deriving DecidableEq, Repr

/-- Modelled from the spec: an Enum Domain of td/enums/enums.py, a closed set
of members with a canonical wire string each (section 3 of the spec). -/
structure EnumSpec (α : Type) where
  value : α → String
  members : List α

/-- Lower-casing by mapping Char.toLower over the characters; a structurally
recursive model of str.lower that the kernel can evaluate. -/
def lowerStr (s : String) : String := ⟨s.data.map Char.toLower⟩

/-- Split a character list on a separator character; the result always has
one more piece than there are separators, as Python str.split does. -/
def splitCharList (sep : Char) : List Char → List (List Char)
  | [] => [[]]
  | c :: rest =>
    let r := splitCharList sep rest
    if c = sep then [] :: r
    else
      match r with
      | [] => [[c]]
      | h :: t => (c :: h) :: t

/-- Split a string on a separator character, the model of Python str.split
with a one-character separator. -/
def splitChar (sep : Char) (s : String) : List String :=
  (splitCharList sep s.data).map (fun l => ⟨l⟩)

/-- One decimal digit. -/
def digitVal (c : Char) : Option Nat :=
  if c.isDigit then some (c.toNat - 48) else none

def digitsToNatAux : Nat → List Char → Option Nat
  | acc, [] => some acc
  | acc, c :: rest =>
    match digitVal c with
    | some d => digitsToNatAux (acc * 10 + d) rest
    | none => none

/-- Parse a nonempty all-digit character list as a natural number. -/
def parseDigits : List Char → Option Nat
  | [] => none
  | l => digitsToNatAux 0 l

/-- Parse a string of exactly n digits. -/
def parseFixedNat (n : Nat) (s : String) : Option Nat :=
  if s.data.length = n then parseDigits s.data else none

/-- Case-insensitive lookup of a string among the canonical values of a
domain, the lookup policy the spec fixes for string input (section 4.1). -/
def lookupCI {α : Type} (E : EnumSpec α) (s : String) : Option α :=
  E.members.find? (fun e => lowerStr (E.value e) == lowerStr s)

/-- Exact-match lookup from a canonical value to its member, the model of the
value_mapping classmethod of the enum base used by query.py. -/
def EnumSpec.value_mapping {α : Type} (E : EnumSpec α) (s : String) : Option α :=
  E.members.find? (fun e => E.value e == s)

/-- Modelled from the spec: BaseApiModel.validate_str_enum, the Enum
Normalizer of section 4.1, absent from src/.  A native member is returned as
its canonical wire string; a string is matched case-insensitively against the
canonical values; an unknown value fails with InvalidEnumValue carrying the
field name, the offending value and the accepted values. -/
def validate_str_enum {α : Type} (field : String) (E : EnumSpec α) :
    EnumInput α → Except VErr String
  | .member e => .ok (E.value e)
  | .str s =>
    match lookupCI E s with
    | some e => .ok (E.value e)
    | none => .error (.invalidEnumValue field s (E.members.map E.value))

/-- The value a later validator sees when it reads an enum-typed sibling out
of info.data: a stored native member (an unvalidated default) is unwrapped
with .value, a stored string stays as it is.  This mirrors the
isinstance-Enum unwrapping that query.py performs on info.data reads. -/
def dataEnumValue {α : Type} (E : EnumSpec α) : EnumInput α → String
  | .member e => E.value e
  | .str s => s

-- The enum domains used by query.py (modelled from the spec: the module
-- td/enums/enums.py is not under src/; canonical wire strings follow the
-- names the spec uses throughout).

inductive Markets where
  | EQUITY | OPTION | FUTURE | BOND | FOREX
deriving DecidableEq, Repr

def Markets.value : Markets → String
  | .EQUITY => "EQUITY"
  | .OPTION => "OPTION"
  | .FUTURE => "FUTURE"
  | .BOND => "BOND"
  | .FOREX => "FOREX"

def Markets.spec : EnumSpec Markets :=
  ⟨Markets.value, [.EQUITY, .OPTION, .FUTURE, .BOND, .FOREX]⟩

/-- Markets.all_values, the known market-code set used by validate_markets. -/
def Markets.all_values : List String := Markets.spec.members.map Markets.value

inductive PeriodType where
  | DAY | MONTH | YEAR | YEAR_TO_DATE
deriving DecidableEq, Repr

def PeriodType.value : PeriodType → String
  | .DAY => "DAY"
  | .MONTH => "MONTH"
  | .YEAR => "YEAR"
  | .YEAR_TO_DATE => "YEAR_TO_DATE"

def PeriodType.spec : EnumSpec PeriodType :=
  ⟨PeriodType.value, [.DAY, .MONTH, .YEAR, .YEAR_TO_DATE]⟩

/-- The dict lookup behind PeriodType.value_mapping of query.py; a missing
key is a KeyError. -/
def PeriodType.value_mapping (s : String) : Option PeriodType :=
  PeriodType.spec.value_mapping s

inductive FrequencyType where
  | MINUTE | DAILY | WEEKLY | MONTHLY
deriving DecidableEq, Repr

def FrequencyType.value : FrequencyType → String
  | .MINUTE => "MINUTE"
  | .DAILY => "DAILY"
  | .WEEKLY => "WEEKLY"
  | .MONTHLY => "MONTHLY"

def FrequencyType.spec : EnumSpec FrequencyType :=
  ⟨FrequencyType.value, [.MINUTE, .DAILY, .WEEKLY, .MONTHLY]⟩

/-- The dict lookup behind FrequencyType.value_mapping of query.py; a missing
key is a KeyError. -/
def FrequencyType.value_mapping (s : String) : Option FrequencyType :=
  FrequencyType.spec.value_mapping s

inductive StrategyType where
  | SINGLE | ANALYTICAL | COVERED | VERTICAL | CALENDAR | STRANGLE
  | STRADDLE | BUTTERFLY | CONDOR | DIAGONAL | COLLAR | ROLL
deriving DecidableEq, Repr

def StrategyType.value : StrategyType → String
  | .SINGLE => "SINGLE"
  | .ANALYTICAL => "ANALYTICAL"
  | .COVERED => "COVERED"
  | .VERTICAL => "VERTICAL"
  | .CALENDAR => "CALENDAR"
  | .STRANGLE => "STRANGLE"
  | .STRADDLE => "STRADDLE"
  | .BUTTERFLY => "BUTTERFLY"
  | .CONDOR => "CONDOR"
  | .DIAGONAL => "DIAGONAL"
  | .COLLAR => "COLLAR"
  | .ROLL => "ROLL"

def StrategyType.spec : EnumSpec StrategyType :=
  ⟨StrategyType.value,
   [.SINGLE, .ANALYTICAL, .COVERED, .VERTICAL, .CALENDAR, .STRANGLE,
    .STRADDLE, .BUTTERFLY, .CONDOR, .DIAGONAL, .COLLAR, .ROLL]⟩

inductive ContractType where
  | CALL | PUT | ALL
deriving DecidableEq, Repr

def ContractType.value : ContractType → String
  | .CALL => "CALL"
  | .PUT => "PUT"
  | .ALL => "ALL"

def ContractType.spec : EnumSpec ContractType :=
  ⟨ContractType.value, [.CALL, .PUT, .ALL]⟩

inductive OptionRange where
  | ITM | NTM | OTM | SAK | SBK | SNK | ALL
deriving DecidableEq, Repr

def OptionRange.value : OptionRange → String
  | .ITM => "ITM"
  | .NTM => "NTM"
  | .OTM => "OTM"
  | .SAK => "SAK"
  | .SBK => "SBK"
  | .SNK => "SNK"
  | .ALL => "ALL"

def OptionRange.spec : EnumSpec OptionRange :=
  ⟨OptionRange.value, [.ITM, .NTM, .OTM, .SAK, .SBK, .SNK, .ALL]⟩

inductive ExpirationMonth where
  | JAN | FEB | MAR | APR | MAY | JUN | JUL | AUG | SEP | OCT | NOV | DEC | ALL
deriving DecidableEq, Repr

def ExpirationMonth.value : ExpirationMonth → String
  | .JAN => "JAN"
  | .FEB => "FEB"
  | .MAR => "MAR"
  | .APR => "APR"
  | .MAY => "MAY"
  | .JUN => "JUN"
  | .JUL => "JUL"
  | .AUG => "AUG"
  | .SEP => "SEP"
  | .OCT => "OCT"
  | .NOV => "NOV"
  | .DEC => "DEC"
  | .ALL => "ALL"

def ExpirationMonth.spec : EnumSpec ExpirationMonth :=
  ⟨ExpirationMonth.value,
   [.JAN, .FEB, .MAR, .APR, .MAY, .JUN, .JUL, .AUG, .SEP, .OCT, .NOV, .DEC, .ALL]⟩

inductive OptionType where
  | S | NS | ALL
deriving DecidableEq, Repr

def OptionType.value : OptionType → String
  | .S => "S"
  | .NS => "NS"
  | .ALL => "ALL"

def OptionType.spec : EnumSpec OptionType :=
  ⟨OptionType.value, [.S, .NS, .ALL]⟩

inductive Projections where
  | SYMBOL_SEARCH | SYMBOL_REGEX | DESC_SEARCH | DESC_REGEX | FUNDAMENTAL
deriving DecidableEq, Repr

def Projections.value : Projections → String
  | .SYMBOL_SEARCH => "SYMBOL_SEARCH"
  | .SYMBOL_REGEX => "SYMBOL_REGEX"
  | .DESC_SEARCH => "DESC_SEARCH"
  | .DESC_REGEX => "DESC_REGEX"
  | .FUNDAMENTAL => "FUNDAMENTAL"

def Projections.spec : EnumSpec Projections :=
  ⟨Projections.value,
   [.SYMBOL_SEARCH, .SYMBOL_REGEX, .DESC_SEARCH, .DESC_REGEX, .FUNDAMENTAL]⟩

inductive MoversIndex where
  | COMPX | DJI | SPX
deriving DecidableEq, Repr

def MoversIndex.value : MoversIndex → String
  | .COMPX => "COMPX"
  | .DJI => "DJI"
  | .SPX => "SPX"

def MoversIndex.spec : EnumSpec MoversIndex :=
  ⟨MoversIndex.value, [.COMPX, .DJI, .SPX]⟩

inductive MoversDirection where
  | UP | DOWN
deriving DecidableEq, Repr

def MoversDirection.value : MoversDirection → String
  | .UP => "UP"
  | .DOWN => "DOWN"

def MoversDirection.spec : EnumSpec MoversDirection :=
  ⟨MoversDirection.value, [.UP, .DOWN]⟩

inductive MoversChange where
  | VALUE | PERCENT
deriving DecidableEq, Repr

def MoversChange.value : MoversChange → String
  | .VALUE => "VALUE"
  | .PERCENT => "PERCENT"

def MoversChange.spec : EnumSpec MoversChange :=
  ⟨MoversChange.value, [.VALUE, .PERCENT]⟩

-- MarketHoursQuery.validate_markets (src/td/models/rest/query.py lines 55-75).

/-- One element of a markets list: the Python list may mix plain strings and
Markets members (the field is annotated str or List of str or Markets). -/
inductive MarketElem where
  | str (s : String)
  | enum (m : Markets)
deriving DecidableEq, Repr

/-- The raw markets value: a single delimited string or a list. -/
inductive MarketsInput where
  | str (s : String)
  | list (l : List MarketElem)
deriving DecidableEq, Repr

/-- The for-loop of the list branch of validate_markets: a string element not
in Markets.all_values raises ValueError at once; an enum element is only
rebound to its .value inside the loop body, which has no effect on the list,
so enum elements pass through unchecked and unconverted. -/
def checkMarketList : List MarketElem → Except VErr Unit
  | [] => .ok ()
  | .str s :: rest =>
    if s ∈ Markets.all_values then checkMarketList rest
    else .error (.valueError "markets" ("Invalid market: " ++ s))
  | .enum _ :: rest => checkMarketList rest

/-- The for-loop of the string branch: each comma-separated part is checked
against Markets.all_values, raising on the first unknown part. -/
def checkMarketParts : List String → Except VErr Unit
  | [] => .ok ()
  | p :: rest =>
    if p ∈ Markets.all_values then checkMarketParts rest
    else .error (.valueError "markets" ("Invalid market: " ++ p))

/-- Comma-join of a list of strings in input order. -/
def commaJoin : List String → String
  | [] => ""
  | [x] => x
  | x :: y :: rest => x ++ "," ++ commaJoin (y :: rest)

/-- The final join of the list branch: Python str.join raises TypeError at
the first element that is not a plain string (the Markets members were never
replaced by their values, see checkMarketList). -/
def joinMarkets : List MarketElem → Except VErr String
  | [] => .ok ""
  | [.str s] => .ok s
  | [.enum _] => .error (.typeError "sequence item: expected str instance, Markets found")
  | .str s :: e :: rest => do
    let t ← joinMarkets (e :: rest)
    .ok (s ++ "," ++ t)
  | .enum _ :: _ :: _ => .error (.typeError "sequence item: expected str instance, Markets found")

/-- MarketHoursQuery.validate_markets: a list is element-checked and then
comma-joined; a string is split on commas, each part checked against
Markets.all_values, and returned unchanged. -/
def validate_markets : MarketsInput → Except VErr String
  | .list l => do
    checkMarketList l
    joinMarkets l
  | .str s => (checkMarketParts (splitChar ',' s)).map (fun _ => s)

-- Date and time values and the shared normalizer.

/-- A calendar date (year, month 1-12, day 1-31). -/
structure DateV where
  year : Nat
  month : Nat
  day : Nat
deriving DecidableEq, Repr

/-- A wall-clock datetime in UTC with millisecond precision. -/
structure DateTimeV where
  date : DateV
  hour : Nat
  minute : Nat
  second : Nat
  millisecond : Nat
deriving DecidableEq, Repr

/-- Midnight UTC of a calendar date. -/
def midnight (d : DateV) : DateTimeV := ⟨d, 0, 0, 0, 0⟩

def isLeapYear (y : Nat) : Bool :=
  (y % 4 == 0 && y % 100 != 0) || (y % 400 == 0)

def daysInMonth (y m : Nat) : Nat :=
  if m == 2 then (if isLeapYear y then 29 else 28)
  else if m == 4 || m == 6 || m == 9 || m == 11 then 30
  else 31

/-- Days from 0001-01-01 to the first day of year y (proleptic Gregorian). -/
def daysBeforeYear (y : Nat) : Nat :=
  (y - 1) * 365 + (y - 1) / 4 - (y - 1) / 100 + (y - 1) / 400

/-- Days from the first of the year to the first of month m. -/
def daysBeforeMonth (y m : Nat) : Nat :=
  (List.range (m - 1)).foldl (fun acc i => acc + daysInMonth y (i + 1)) 0

/-- Days from 0001-01-01 to 1970-01-01. -/
def epochDayOffset : Nat := daysBeforeYear 1970

/-- Days between the Unix epoch and a calendar date. -/
def daysFromEpoch (d : DateV) : Int :=
  (Int.ofNat (daysBeforeYear d.year + daysBeforeMonth d.year d.month + (d.day - 1)))
    - Int.ofNat epochDayOffset

/-- Epoch milliseconds (UTC) of a datetime. -/
def epochMs (t : DateTimeV) : Int :=
  daysFromEpoch t.date * 86400000
    + Int.ofNat (t.hour * 3600000 + t.minute * 60000 + t.second * 1000 + t.millisecond)

/-- Parse the date part YYYY-MM-DD of an ISO-8601 string. -/
def parseIsoDate (s : String) : Option DateV :=
  match splitChar '-' s with
  | [ys, ms, ds] =>
    match parseFixedNat 4 ys, parseFixedNat 2 ms, parseFixedNat 2 ds with
    | some y, some m, some d =>
      if 1 ≤ m ∧ m ≤ 12 ∧ 1 ≤ d ∧ d ≤ daysInMonth y m then some ⟨y, m, d⟩
      else none
    | _, _, _ => none
  | _ => none

/-- Parse the seconds part SS or SS.mmm of an ISO-8601 time. -/
def parseIsoSeconds (s : String) : Option (Nat × Nat) :=
  match splitChar '.' s with
  | [ss] =>
    match parseFixedNat 2 ss with
    | some v => if v ≤ 59 then some (v, 0) else none
    | none => none
  | [ss, ms] =>
    match parseFixedNat 2 ss, parseFixedNat 3 ms with
    | some v, some w => if v ≤ 59 then some (v, w) else none
    | _, _ => none
  | _ => none

/-- Parse the time part HH:MM:SS with optional fractional milliseconds. -/
def parseIsoTime (s : String) : Option (Nat × Nat × Nat × Nat) :=
  match splitChar ':' s with
  | [hs, mins, rest] =>
    match parseFixedNat 2 hs, parseFixedNat 2 mins, parseIsoSeconds rest with
    | some h, some m, some (sec, ms) =>
      if h ≤ 23 ∧ m ≤ 59 then some (h, m, sec, ms) else none
    | _, _, _ => none
  | _ => none

/-- Modelled from the spec: the ISO-8601 parsing accepted by the Date/Time
Normalizer (section 4.2), absent from src/.  A date-only string denotes
midnight UTC; a trailing Z is accepted; anything else is unparsable. -/
def parseIso (s : String) : Option DateTimeV :=
  let t : String :=
    match s.data.getLast? with
    | some c => if c = 'Z' then ⟨s.data.dropLast⟩ else s
    | none => s
  match splitChar 'T' t with
  | [d] => (parseIsoDate d).map midnight
  | [d, tt] =>
    match parseIsoDate d, parseIsoTime tt with
    | some dv, some (h, m, sec, ms) => some ⟨dv, h, m, sec, ms⟩
    | _, _ => none
  | _ => none

/-- A raw value for a temporal field: an already-numeric epoch timestamp, a
datetime, a date, an ISO-8601 string, or a value of some other type. -/
inductive DateInput where
  | epoch (n : Int)
  | datetime (v : DateTimeV)
  | dateOnly (v : DateV)
  | iso (s : String)
  | other (txt : String)
deriving DecidableEq, Repr

/-- Modelled from the spec: td/utils/helpers.convert_to_unix_time_ms, the
Date/Time Normalizer of section 4.2, absent from src/.  None passes through;
a numeric epoch timestamp is returned as is; a datetime or date becomes epoch
milliseconds UTC, a date counting as midnight; a string is parsed as ISO-8601;
an unparsable string or a wrong type fails with InvalidDateFormat.  The field
name is the pydantic error location. -/
def convert_to_unix_time_ms (field : String) :
    Option DateInput → Except VErr (Option Int)
  | none => .ok none
  | some (.epoch n) => .ok (some n)
  | some (.datetime v) => .ok (some (epochMs v))
  | some (.dateOnly d) => .ok (some (epochMs (midnight d)))
  | some (.iso s) =>
    match parseIso s with
    | some v => .ok (some (epochMs v))
    | none => .error (.invalidDateFormat field s)
  | some (.other txt) => .error (.invalidDateFormat field txt)

/-- Modelled from the spec: BaseApiModel.validate_iso_date_field, absent from
src/; the spec states the same normalizer is reused verbatim across every
endpoint with temporal bounds (section 4.2). -/
def validate_iso_date_field : String → Option DateInput → Except VErr (Option Int) :=
  convert_to_unix_time_ms

-- Generic field steps of the pydantic pipeline.

/-- One enum-typed field of a model: an absent field takes its default with no
validator run; a supplied value goes through validate_str_enum and is stored
as the returned wire string. -/
def stepEnumField {α : Type} (dflt : EnumInput α) (field : String) (E : EnumSpec α) :
    Option (EnumInput α) → Except VErr (EnumInput α)
  | none => .ok dflt
  | some v => (validate_str_enum field E v).map .str

/-- One optional temporal field: absent means default None with no validator
run; a supplied value goes through the shared date normalizer. -/
def stepDateField (field : String) : Option DateInput → Except VErr (Option Int)
  | none => .ok none
  | some v => validate_iso_date_field field (some v)

-- InstrumentsQuery (lines 38-45).

structure InstrumentsQueryInput where
  symbol : String
  projection : EnumInput Projections
deriving DecidableEq, Repr

structure InstrumentsQueryRec where
  symbol : String
  projection : String
deriving DecidableEq, Repr

/-- InstrumentsQuery validation: validate_projection applies the Enum
Normalizer to the projection field. -/
def validateInstruments (i : InstrumentsQueryInput) : Except VErr InstrumentsQueryRec :=
  (validate_str_enum "projection" Projections.spec i.projection).map
    (fun p => ⟨i.symbol, p⟩)

-- MarketHoursQuery (lines 51-80).

structure MarketHoursQueryInput where
  markets : MarketsInput
  date_time : Option DateInput := none
deriving DecidableEq, Repr

structure MarketHoursQueryRec where
  markets : String
  date_time : Option Int
deriving DecidableEq, Repr

/-- MarketHoursQuery validation: validate_markets then format_date_fields on
the optional date field. -/
def validateMarketHours (i : MarketHoursQueryInput) : Except VErr MarketHoursQueryRec := do
  let m ← validate_markets i.markets
  let d ← stepDateField "date_time" i.date_time
  .ok ⟨m, d⟩

-- MoversQuery (lines 86-104).

structure MoversQueryInput where
  index : EnumInput MoversIndex
  direction : EnumInput MoversDirection
  change : EnumInput MoversChange
deriving DecidableEq, Repr

structure MoversQueryRec where
  index : String
  direction : String
  change : String
deriving DecidableEq, Repr

/-- MoversQuery validation: the three enum fields each go through the Enum
Normalizer. -/
def validateMovers (i : MoversQueryInput) : Except VErr MoversQueryRec := do
  let ix ← validate_str_enum "index" MoversIndex.spec i.index
  let dir ← validate_str_enum "direction" MoversDirection.spec i.direction
  let ch ← validate_str_enum "change" MoversChange.spec i.change
  .ok ⟨ix, dir, ch⟩

-- OptionChainQuery (lines 110-168).

/-- Raw caller input; none marks a field the caller did not supply (the field
then takes its default and its validators are skipped).  Python float fields
are modelled as Rat, only their presence matters to the validators. -/
structure OptionChainQueryInput where
  symbol : String
  contract_type : Option (EnumInput ContractType) := none
  strike_count : Option Int := none
  include_quotes : Option Bool := none
  strategy : Option (EnumInput StrategyType) := none
  interval : Option Int := none
  strike : Option Rat := none
  option_range : Option (EnumInput OptionRange) := none
  from_date : Option DateInput := none
  to_date : Option DateInput := none
  volatility : Option Int := none
  underlying_price : Option Rat := none
  interest_rate : Option Rat := none
  days_to_expiration : Option Int := none
  expiration_month : Option (EnumInput ExpirationMonth) := none
  option_type : Option (EnumInput OptionType) := none
deriving DecidableEq, Repr

/-- The validated record: enum fields hold either the stored wire string or
an unvalidated default member; temporal fields hold epoch milliseconds. -/
structure OptionChainQueryRec where
  symbol : String
  contract_type : EnumInput ContractType
  strike_count : Option Int
  include_quotes : Bool
  strategy : EnumInput StrategyType
  interval : Option Int
  strike : Option Rat
  option_range : EnumInput OptionRange
  from_date : Option Int
  to_date : Option Int
  volatility : Option Int
  underlying_price : Option Rat
  interest_rate : Option Rat
  days_to_expiration : Option Int
  expiration_month : EnumInput ExpirationMonth
  option_type : EnumInput OptionType
deriving DecidableEq, Repr

/-- OptionChainQuery.validate_strategy_fields for one gated field: the
strategy read from info.data is a member (the unvalidated default) or the
stored wire string; if it resolves to SINGLE and the value is not None the
validator raises ValueError interpolating the value; valueRepr is the str()
of the supplied value. -/
def validate_strategy_fields (field : String) (valueRepr : Option String)
    (strategyData : EnumInput StrategyType) : Except VErr Unit :=
  let strategy := dataEnumValue StrategyType.spec strategyData
  match valueRepr with
  | some r =>
    if strategy = "SINGLE" then
      .error (.valueError field (r ++ " cannot be set with strategy type SINGLE."))
    else .ok ()
  | none => .ok ()

def stepContractType (v : Option (EnumInput ContractType)) : Except VErr (EnumInput ContractType) :=
  stepEnumField (.member .ALL) "contract_type" ContractType.spec v

def stepStrategy (v : Option (EnumInput StrategyType)) : Except VErr (EnumInput StrategyType) :=
  stepEnumField (.member .SINGLE) "strategy" StrategyType.spec v

def stepOptionRange (v : Option (EnumInput OptionRange)) : Except VErr (EnumInput OptionRange) :=
  stepEnumField (.member .ALL) "range" OptionRange.spec v

def stepExpirationMonth (v : Option (EnumInput ExpirationMonth)) : Except VErr (EnumInput ExpirationMonth) :=
  stepEnumField (.member .ALL) "expiration_month" ExpirationMonth.spec v

def stepOptionType (v : Option (EnumInput OptionType)) : Except VErr (EnumInput OptionType) :=
  stepEnumField (.member .ALL) "option_type" OptionType.spec v

/-- OptionChainQuery validation in pydantic field order.  The strategy field
is validated before the four gated fields, so validate_strategy_fields reads
its final stored form from info.data. -/
def validateOptionChain (i : OptionChainQueryInput) : Except VErr OptionChainQueryRec := do
  let ct ← stepContractType i.contract_type
  let strat ← stepStrategy i.strategy
  let orange ← stepOptionRange i.option_range
  let fd ← stepDateField "from_date" i.from_date
  let td ← stepDateField "to_date" i.to_date
  let _ ← validate_strategy_fields "volatility" (i.volatility.map toString) strat
  let _ ← validate_strategy_fields "underlying_price" (i.underlying_price.map toString) strat
  let _ ← validate_strategy_fields "interest_rate" (i.interest_rate.map toString) strat
  let _ ← validate_strategy_fields "days_to_expiration" (i.days_to_expiration.map toString) strat
  let em ← stepExpirationMonth i.expiration_month
  let ot ← stepOptionType i.option_type
  .ok ⟨i.symbol, ct, i.strike_count, i.include_quotes.getD false, strat,
       i.interval, i.strike, orange, fd, td, i.volatility, i.underlying_price,
       i.interest_rate, i.days_to_expiration, em, ot⟩

-- PriceHistoryQuery (lines 174-279).

structure PriceHistoryQueryInput where
  api_key : Option String := none
  symbol : String
  period_type : Option (EnumInput PeriodType) := none
  period : Option Int := none
  frequency_type : Option (EnumInput FrequencyType) := none
  frequency : Option Int := none
  start_date : Option DateInput := none
  end_date : Option DateInput := none
  need_extended_hours_data : Option Bool := none
deriving DecidableEq, Repr

structure PriceHistoryQueryRec where
  api_key : Option String
  symbol : String
  period_type : EnumInput PeriodType
  period : Option Int
  frequency_type : Option (EnumInput FrequencyType)
  frequency : Option Int
  start_date : Option Int
  end_date : Option Int
  need_extended_hours_data : Bool
deriving DecidableEq, Repr

def valid_periods_by_period_type : PeriodType → List Int
  | .DAY => [1, 2, 3, 4, 5, 10]
  | .MONTH => [1, 2, 3, 6]
  | .YEAR => [1, 2, 3, 5, 10, 15, 20]
  | .YEAR_TO_DATE => [1]

def valid_frequency_types_by_period_type : PeriodType → List FrequencyType
  | .DAY => [.MINUTE]
  | .MONTH => [.DAILY, .WEEKLY]
  | .YEAR => [.DAILY, .WEEKLY, .MONTHLY]
  | .YEAR_TO_DATE => [.DAILY, .WEEKLY]

def valid_frequencies_by_frequency_type : FrequencyType → List Int
  | .MINUTE => [1, 5, 10, 15, 30]
  | .DAILY => [1]
  | .WEEKLY => [1]
  | .MONTHLY => [1]

def stepPeriodType (v : Option (EnumInput PeriodType)) : Except VErr (EnumInput PeriodType) :=
  stepEnumField (.member .DAY) "period_type" PeriodType.spec v

/-- PriceHistoryQuery.validate_period: period_type is read from info.data
(the default member unwrapped with .value, otherwise the stored string), fed
through PeriodType.value_mapping (a missing key is a KeyError), and the
period checked against the legality table. -/
def validate_period (period : Int) (ptData : EnumInput PeriodType) : Except VErr Int :=
  let pts := dataEnumValue PeriodType.spec ptData
  match PeriodType.value_mapping pts with
  | none => .error (.keyError pts)
  | some pt =>
    if period ∈ valid_periods_by_period_type pt then .ok period
    else .error (.valueError "period" ("Invalid period for period type " ++ pts))

/-- PriceHistoryQuery.validate_frequency_type, the second validator on the
field: it receives the wire string produced by validate_frequency_type_str,
re-coerces it to a member through FrequencyType.value_mapping, checks the
legality table for the resolved period type, and returns the member (not the
string), which is what gets stored. -/
def validate_frequency_type (ftStr : String) (ptData : EnumInput PeriodType) :
    Except VErr FrequencyType :=
  let pts := dataEnumValue PeriodType.spec ptData
  match FrequencyType.value_mapping ftStr with
  | none => .error (.keyError ftStr)
  | some ft =>
    match PeriodType.value_mapping pts with
    | none => .error (.keyError pts)
    | some pt =>
      if ft ∈ valid_frequency_types_by_period_type pt then .ok ft
      else .error (.valueError "frequency_type"
        ("Invalid frequency type for period type " ++ pts))

/-- PriceHistoryQuery.validate_frequency: info.data always carries the
frequency_type key by the time frequency is validated (the field is declared
earlier and absent fields receive their default None), so the MINUTE fallback
of the dict get is never used; a stored member is unwrapped to its value and
a None reaches the value_mapping dict lookup, which raises KeyError. -/
def validate_frequency (frequency : Int) (ftData : Option (EnumInput FrequencyType)) :
    Except VErr Int :=
  let ftv : Option String := ftData.map (dataEnumValue FrequencyType.spec)
  match ftv with
  | none => .error (.keyError "None")
  | some s =>
    match FrequencyType.value_mapping s with
    | none => .error (.keyError s)
    | some ft =>
      if frequency ∈ valid_frequencies_by_frequency_type ft then .ok frequency
      else .error (.valueError "frequency" ("Invalid frequency for frequency type " ++ s))

/-- PriceHistoryQuery.validate_dates_period: raises only when start_date,
end_date and period are all keys of info.data at once.  The three booleans
are the key-presence facts at the call site.  Because the field currently
being validated is never a key of info.data, the validator can never raise
in the model pipeline. -/
def validate_dates_period (startIn endIn periodIn : Bool) : Except VErr Unit :=
  if startIn && endIn && periodIn then
    .error (.valueError "dates" "Cannot have period with start and end date.")
  else .ok ()

def stepPeriod (period : Option Int) (ptData : EnumInput PeriodType) :
    Except VErr (Option Int) :=
  match period with
  | none => .ok none
  | some p => (validate_period p ptData).map some

/-- The two validators on frequency_type in definition order:
validate_frequency_type_str (the Enum Normalizer) feeding
validate_frequency_type; the stored result is the member the latter returns. -/
def stepFrequencyType (v : Option (EnumInput FrequencyType)) (ptData : EnumInput PeriodType) :
    Except VErr (Option (EnumInput FrequencyType)) :=
  match v with
  | none => .ok none
  | some w => do
    let s ← validate_str_enum "frequency_type" FrequencyType.spec w
    let e ← validate_frequency_type s ptData
    .ok (some (.member e))

def stepFrequency (v : Option Int) (ftData : Option (EnumInput FrequencyType)) :
    Except VErr (Option Int) :=
  match v with
  | none => .ok none
  | some f => (validate_frequency f ftData).map some

/-- The start_date field step: when validating start_date, info.data holds
api_key through frequency (defaults included) but neither start_date nor
end_date, so validate_dates_period sees (false, false, true); then the shared
normalizer runs. -/
def stepStartDate : Option DateInput → Except VErr (Option Int)
  | none => .ok none
  | some v => do
    let _ ← validate_dates_period false false true
    convert_to_unix_time_ms "start_date" (some v)

/-- The end_date field step: when validating end_date, info.data holds the
start_date key (possibly with its default None) but never end_date itself,
so validate_dates_period sees (true, false, true). -/
def stepEndDate : Option DateInput → Except VErr (Option Int)
  | none => .ok none
  | some v => do
    let _ ← validate_dates_period true false true
    convert_to_unix_time_ms "end_date" (some v)

/-- PriceHistoryQuery validation in pydantic field order. -/
def validatePriceHistory (i : PriceHistoryQueryInput) : Except VErr PriceHistoryQueryRec := do
  let pt ← stepPeriodType i.period_type
  let per ← stepPeriod i.period pt
  let ft ← stepFrequencyType i.frequency_type pt
  let fr ← stepFrequency i.frequency ft
  let sd ← stepStartDate i.start_date
  let ed ← stepEndDate i.end_date
  .ok ⟨i.api_key, i.symbol, pt, per, ft, fr, sd, ed,
       i.need_extended_hours_data.getD true⟩

end TDQuery

namespace TDQuery

-- Helper lemmas shared by the claim theorems.

theorem except_bind_ok {ε α β : Type} (x : Except ε α) (f : α → Except ε β) (b : β) :
    (x >>= f) = .ok b ↔ ∃ a, x = .ok a ∧ f a = .ok b := by
  cases x <;> simp [Bind.bind, Except.bind]

theorem except_map_ok {ε α β : Type} (x : Except ε α) (g : α → β) (b : β) :
    (Except.map g x) = .ok b ↔ ∃ a, x = .ok a ∧ g a = b := by
  cases x <;> simp [Except.map]

theorem validate_str_enum_ok_shape {α : Type} (field : String) (E : EnumSpec α)
    (v : EnumInput α) (s : String)
    (h : validate_str_enum field E v = .ok s) : ∃ e, s = E.value e := by
  cases v with
  | member e =>
    simp [validate_str_enum] at h
    exact ⟨e, h.symm⟩
  | str t =>
    simp only [validate_str_enum] at h
    cases hfind : lookupCI E t with
    | none => rw [hfind] at h; exact absurd h (by simp)
    | some e =>
      rw [hfind] at h
      simp at h
      exact ⟨e, h.symm⟩

theorem convert_some_ok_shape (f : String) (d : DateInput) (o : Option Int)
    (h : convert_to_unix_time_ms f (some d) = .ok o) : ∃ n, o = some n := by
  cases d with
  | epoch n => simp [convert_to_unix_time_ms] at h; exact ⟨n, h.symm⟩
  | datetime v => simp [convert_to_unix_time_ms] at h; exact ⟨_, h.symm⟩
  | dateOnly v => simp [convert_to_unix_time_ms] at h; exact ⟨_, h.symm⟩
  | iso s =>
    simp only [convert_to_unix_time_ms] at h
    cases hp : parseIso s with
    | none => rw [hp] at h; exact absurd h (by simp)
    | some v => rw [hp] at h; simp at h; exact ⟨_, h.symm⟩
  | other t => simp [convert_to_unix_time_ms] at h

theorem stepEnumField_ok_shape {α : Type} (dflt : EnumInput α) (field : String)
    (E : EnumSpec α) (v : Option (EnumInput α)) (out : EnumInput α)
    (h : stepEnumField dflt field E v = .ok out) :
    (∀ w, v = some w → ∃ e, out = .str (E.value e)) ∧ (v = none → out = dflt) := by
  cases v with
  | none =>
    refine ⟨fun w hw => Option.noConfusion hw, fun _ => ?_⟩
    simp only [stepEnumField] at h
    exact (Except.ok.inj h).symm
  | some w =>
    refine ⟨fun w2 hw2 => ?_, fun hn => Option.noConfusion hn⟩
    simp only [stepEnumField] at h
    obtain ⟨s, hs, hout⟩ := (except_map_ok _ _ _).mp h
    obtain ⟨e, he⟩ := validate_str_enum_ok_shape _ _ _ _ hs
    exact ⟨e, by rw [← hout, he]⟩

theorem stepDateField_ok_shape (field : String) (v : Option DateInput) (out : Option Int)
    (h : stepDateField field v = .ok out) :
    (∀ w, v = some w → ∃ n, out = some n) ∧ (v = none → out = none) := by
  cases v with
  | none =>
    refine ⟨fun w hw => Option.noConfusion hw, fun _ => ?_⟩
    simp only [stepDateField] at h
    exact (Except.ok.inj h).symm
  | some w =>
    refine ⟨fun w2 hw2 => ?_, fun hn => Option.noConfusion hn⟩
    simp only [stepDateField, validate_iso_date_field] at h
    exact convert_some_ok_shape _ _ _ h

end TDQuery

namespace TDQuery

/-- Claim C1: the claim says a PriceHistoryQuery supplying period together with
both start_date and end_date fails with ConflictingDateRange.  The code
accepts it: the condition of validate_dates_period asks for the start_date
and end_date keys of info.data while one of them is the very field under
validation, so the guard can never hold and the ValueError is unreachable;
the two conjuncts on validate_dates_period evaluate the guard at the only
key-presence configurations the pipeline can produce. -/
theorem c1_period_with_both_dates_is_accepted :
    validatePriceHistory
      { symbol := "AAPL", period := some 1,
        start_date := some (.epoch 0), end_date := some (.epoch 86400000) }
      = .ok ⟨none, "AAPL", .member .DAY, some 1, none, none, some 0, some 86400000, true⟩
    ∧ validate_dates_period false false true = .ok ()
    ∧ validate_dates_period true false true = .ok () := by
  refine ⟨by decide, by decide, by decide⟩

/-- Claim C2: the claim says a markets list mixing strings and Markets members
normalizes to the comma-joined canonical codes.  The code raises TypeError
from the final str join because the loop only rebinds its local variable to
market.value and never converts the list elements. -/
theorem c2_enum_member_list_raises_type_error :
    validate_markets (.list [.enum .EQUITY, .str "BOND"])
      = .error (.typeError "sequence item: expected str instance, Markets found") := by
  decide

/-- Claim C4: the claim says an absent frequency_type defaults to MINUTE before
the frequency lookup.  In the code the frequency_type key is always present
in info.data (with value None when the field was absent), so the MINUTE
fallback of the dict get never applies and the value_mapping dict lookup
raises KeyError on None. -/
theorem c4_missing_frequency_type_raises_key_error :
    validatePriceHistory { symbol := "AAPL", frequency := some 1 }
      = .error (.keyError "None") := by
  decide

/-- Claim C3 counterexample: a PriceHistoryQuery that validates successfully
with period_type MONTH and frequency_type DAILY stores the FrequencyType
member in the frequency_type field, not its canonical wire string, because
validate_frequency_type re-coerces the already-normalized string back to a
member and returns the member; and an OptionChainQuery that validates
successfully with every field defaulted stores the default ContractType
member in contract_type, since defaulted fields bypass the validators.  The
inequality conjuncts record that each stored member differs from the
wire-string form the claim requires. -/
theorem c3_counterexample_frequency_type_not_wire_string :
    validatePriceHistory
      { symbol := "AAPL", period_type := some (.str "MONTH"),
        frequency_type := some (.str "DAILY") }
      = .ok ⟨none, "AAPL", .str "MONTH", none, some (.member .DAILY), none, none, none, true⟩
    ∧ (some (EnumInput.member FrequencyType.DAILY)
        ≠ some (EnumInput.str (FrequencyType.value FrequencyType.DAILY)))
    ∧ validateOptionChain { symbol := "AAPL" }
      = .ok ⟨"AAPL", .member .ALL, none, false, .member .SINGLE, none, none,
          .member .ALL, none, none, none, none, none, none, .member .ALL, .member .ALL⟩
    ∧ (EnumInput.member ContractType.ALL
        ≠ EnumInput.str (ContractType.value ContractType.ALL)) := by
  refine ⟨by decide, by decide, by decide, by decide⟩

end TDQuery

namespace TDQuery

/-- Claim C5: with period supplied, PriceHistoryQuery validation succeeds only if
the period belongs to the legality table row of the resolved period type
(the supplied canonical value, or the DAY default), and a period outside
that row fails with the IncompatiblePeriod error of validate_period. -/
theorem c5_period_legality (i : PriceHistoryQueryInput) (p : Int)
    (ptd : EnumInput PeriodType) (pt : PeriodType)
    (hp : i.period = some p)
    (hpt : stepPeriodType i.period_type = .ok ptd)
    (hmap : PeriodType.value_mapping (dataEnumValue PeriodType.spec ptd) = some pt) :
    ((∃ r, validatePriceHistory i = .ok r) → p ∈ valid_periods_by_period_type pt)
    ∧ (p ∉ valid_periods_by_period_type pt →
        validatePriceHistory i = .error (.valueError "period"
          ("Invalid period for period type " ++ dataEnumValue PeriodType.spec ptd))) := by
  have hvp : validate_period p ptd =
      (if p ∈ valid_periods_by_period_type pt then .ok p
       else .error (.valueError "period"
         ("Invalid period for period type " ++ dataEnumValue PeriodType.spec ptd))) := by
    simp only [validate_period, hmap]
  by_cases hmem : p ∈ valid_periods_by_period_type pt
  · exact ⟨fun _ => hmem, fun hn => absurd hmem hn⟩
  · constructor
    · rintro ⟨r, hr⟩
      simp only [validatePriceHistory, hpt, hp, stepPeriod, hvp, if_neg hmem,
        Bind.bind, Except.bind, Except.map] at hr
      exact Except.noConfusion hr
    · intro _
      simp only [validatePriceHistory, hpt, hp, stepPeriod, hvp, if_neg hmem,
        Bind.bind, Except.bind, Except.map]

/-- Claim C5 witness: period 7 is illegal for the resolved period type DAY and the
whole validation fails with the IncompatiblePeriod message. -/
theorem c5_period_legality_witness :
    (7 : Int) ∉ valid_periods_by_period_type PeriodType.DAY
    ∧ validatePriceHistory
        { symbol := "AAPL", period_type := some (.str "DAY"), period := some 7 }
      = .error (.valueError "period" "Invalid period for period type DAY") := by
  refine ⟨by decide, ?_⟩
  exact (c5_period_legality
    { symbol := "AAPL", period_type := some (.str "DAY"), period := some 7 }
    7 (.str "DAY") .DAY rfl (by decide) (by decide)).2 (by decide)

end TDQuery

namespace TDQuery

/-- Claim C6: with frequency_type supplied, PriceHistoryQuery validation succeeds
only if the member it resolves to belongs to the legality table row of the
resolved period type, and a member outside that row fails with the
IncompatibleFrequencyType error of validate_frequency_type. -/
theorem c6_frequency_type_legality (i : PriceHistoryQueryInput)
    (v : EnumInput FrequencyType) (ptd : EnumInput PeriodType) (pt : PeriodType)
    (op : Option Int) (s : String) (ft : FrequencyType)
    (hv : i.frequency_type = some v)
    (hpt : stepPeriodType i.period_type = .ok ptd)
    (hper : stepPeriod i.period ptd = .ok op)
    (hmapPt : PeriodType.value_mapping (dataEnumValue PeriodType.spec ptd) = some pt)
    (hs : validate_str_enum "frequency_type" FrequencyType.spec v = .ok s)
    (hm : FrequencyType.value_mapping s = some ft) :
    ((∃ r, validatePriceHistory i = .ok r) → ft ∈ valid_frequency_types_by_period_type pt)
    ∧ (ft ∉ valid_frequency_types_by_period_type pt →
        validatePriceHistory i = .error (.valueError "frequency_type"
          ("Invalid frequency type for period type " ++ dataEnumValue PeriodType.spec ptd))) := by
  have hvf : validate_frequency_type s ptd =
      (if ft ∈ valid_frequency_types_by_period_type pt then .ok ft
       else .error (.valueError "frequency_type"
         ("Invalid frequency type for period type " ++ dataEnumValue PeriodType.spec ptd))) := by
    simp only [validate_frequency_type, hm, hmapPt]
  by_cases hmem : ft ∈ valid_frequency_types_by_period_type pt
  · exact ⟨fun _ => hmem, fun hn => absurd hmem hn⟩
  · constructor
    · rintro ⟨r, hr⟩
      simp only [validatePriceHistory, hpt, hper, hv, stepFrequencyType, hs, hvf,
        if_neg hmem, Bind.bind, Except.bind, Except.map] at hr
      exact Except.noConfusion hr
    · intro _
      simp only [validatePriceHistory, hpt, hper, hv, stepFrequencyType, hs, hvf,
        if_neg hmem, Bind.bind, Except.bind, Except.map]

/-- Claim C6 witness: MONTHLY is illegal for period type MONTH and the whole
validation fails with the IncompatibleFrequencyType message. -/
theorem c6_frequency_type_legality_witness :
    FrequencyType.MONTHLY ∉ valid_frequency_types_by_period_type PeriodType.MONTH
    ∧ validatePriceHistory
        { symbol := "AAPL", period_type := some (.str "MONTH"),
          frequency_type := some (.str "MONTHLY") }
      = .error (.valueError "frequency_type"
          "Invalid frequency type for period type MONTH") := by
  refine ⟨by decide, ?_⟩
  exact (c6_frequency_type_legality
    { symbol := "AAPL", period_type := some (.str "MONTH"),
      frequency_type := some (.str "MONTHLY") }
    (.str "MONTHLY") (.str "MONTH") .MONTH none "MONTHLY" .MONTHLY
    rfl (by decide) (by decide) (by decide) (by decide) (by decide)).2 (by decide)

end TDQuery

namespace TDQuery

/-- Claim C7: once the enum and date fields of an OptionChainQuery validate, the
behaviour of the four strategy-gated fields is decided by the resolved
strategy: under SINGLE (supplied or defaulted) any set gated field fails
with a ValueError located at that field (the first such field in declaration
order) and all four unset succeeds, while under any other strategy the gated
fields are accepted. -/
theorem c7_strategy_gated_fields (i : OptionChainQueryInput)
    (st : EnumInput StrategyType) (ct : EnumInput ContractType)
    (orange : EnumInput OptionRange) (fd td : Option Int)
    (em : EnumInput ExpirationMonth) (ot : EnumInput OptionType)
    (hct : stepContractType i.contract_type = .ok ct)
    (hst : stepStrategy i.strategy = .ok st)
    (hor : stepOptionRange i.option_range = .ok orange)
    (hfd : stepDateField "from_date" i.from_date = .ok fd)
    (htd : stepDateField "to_date" i.to_date = .ok td)
    (hem : stepExpirationMonth i.expiration_month = .ok em)
    (hot : stepOptionType i.option_type = .ok ot) :
    (dataEnumValue StrategyType.spec st = "SINGLE" →
      ((i.volatility = none ∧ i.underlying_price = none ∧ i.interest_rate = none
          ∧ i.days_to_expiration = none) → ∃ r, validateOptionChain i = .ok r)
      ∧ (∀ x, i.volatility = some x →
          validateOptionChain i = .error (.valueError "volatility"
            (toString x ++ " cannot be set with strategy type SINGLE.")))
      ∧ ((i.volatility ≠ none ∨ i.underlying_price ≠ none ∨ i.interest_rate ≠ none
          ∨ i.days_to_expiration ≠ none) →
          ∃ f m, f ∈ ["volatility", "underlying_price", "interest_rate",
            "days_to_expiration"] ∧ validateOptionChain i = .error (.valueError f m)))
    ∧ (dataEnumValue StrategyType.spec st ≠ "SINGLE" →
        ∃ r, validateOptionChain i = .ok r) := by
  have hred : validateOptionChain i = (do
      let _ ← validate_strategy_fields "volatility" (i.volatility.map toString) st
      let _ ← validate_strategy_fields "underlying_price" (i.underlying_price.map toString) st
      let _ ← validate_strategy_fields "interest_rate" (i.interest_rate.map toString) st
      let _ ← validate_strategy_fields "days_to_expiration" (i.days_to_expiration.map toString) st
      let em2 ← stepExpirationMonth i.expiration_month
      let ot2 ← stepOptionType i.option_type
      Except.ok ⟨i.symbol, ct, i.strike_count, i.include_quotes.getD false, st,
           i.interval, i.strike, orange, fd, td, i.volatility, i.underlying_price,
           i.interest_rate, i.days_to_expiration, em2, ot2⟩) := by
    simp only [validateOptionChain, hct, hst, hor, hfd, htd, Bind.bind, Except.bind]
  have hgateNone : ∀ f, validate_strategy_fields f none st = .ok () := fun _ => rfl
  constructor
  · intro hS
    have hgateSome : ∀ f r, validate_strategy_fields f (some r) st
        = .error (.valueError f (r ++ " cannot be set with strategy type SINGLE.")) := by
      intro f r
      simp only [validate_strategy_fields, hS, if_pos]
    refine ⟨?_, ?_, ?_⟩
    · rintro ⟨hv, hu, hi2, hd⟩
      simp only [hred, hv, hu, hi2, hd, Option.map_none', hgateNone, hem, hot,
        Bind.bind, Except.bind]
      exact ⟨_, rfl⟩
    · intro x hx
      rw [hred]
      simp only [hx, Option.map_some', hgateSome, Bind.bind, Except.bind]
    · intro hne
      cases hvol : i.volatility with
      | some x =>
        refine ⟨"volatility", toString x ++ " cannot be set with strategy type SINGLE.",
          by simp, ?_⟩
        rw [hred]
        simp only [hvol, Option.map_some', hgateSome, Bind.bind, Except.bind]
      | none =>
        cases hup : i.underlying_price with
        | some x =>
          refine ⟨"underlying_price", toString x ++ " cannot be set with strategy type SINGLE.",
            by simp, ?_⟩
          rw [hred]
          simp only [hvol, hup, Option.map_none', Option.map_some', hgateNone, hgateSome,
            Bind.bind, Except.bind]
        | none =>
          cases hir : i.interest_rate with
          | some x =>
            refine ⟨"interest_rate", toString x ++ " cannot be set with strategy type SINGLE.",
              by simp, ?_⟩
            rw [hred]
            simp only [hvol, hup, hir, Option.map_none', Option.map_some', hgateNone,
              hgateSome, Bind.bind, Except.bind]
          | none =>
            cases hdte : i.days_to_expiration with
            | some x =>
              refine ⟨"days_to_expiration",
                toString x ++ " cannot be set with strategy type SINGLE.", by simp, ?_⟩
              rw [hred]
              simp only [hvol, hup, hir, hdte, Option.map_none', Option.map_some',
                hgateNone, hgateSome, Bind.bind, Except.bind]
            | none =>
              rcases hne with h | h | h | h
              · exact absurd hvol h
              · exact absurd hup h
              · exact absurd hir h
              · exact absurd hdte h
  · intro hS
    have hgateAny : ∀ f rep, validate_strategy_fields f rep st = .ok () := by
      intro f rep
      cases rep with
      | none => rfl
      | some r =>
        simp only [validate_strategy_fields]
        rw [if_neg hS]
    simp only [hred, hgateAny, hem, hot, Bind.bind, Except.bind]
    exact ⟨_, rfl⟩

/-- Claim C7 witness: under strategy STRADDLE a set volatility is accepted and the
whole OptionChainQuery validates. -/
theorem c7_strategy_gated_fields_witness :
    ∃ r, validateOptionChain
      { symbol := "AAPL", strategy := some (.str "STRADDLE"), volatility := some 20 }
      = .ok r := by
  exact (c7_strategy_gated_fields
    { symbol := "AAPL", strategy := some (.str "STRADDLE"), volatility := some 20 }
    (.str "STRADDLE") (.member .ALL) (.member .ALL) none none (.member .ALL) (.member .ALL)
    (by decide) (by decide) (by decide) (by decide) (by decide) (by decide) (by decide)).2
    (by decide)

end TDQuery

namespace TDQuery

/-- Claim C3 amended: once validation succeeds, every caller-supplied field
holds its canonical representation — enum fields coerced by
validate_str_enum are stored as the canonical wire string, temporal fields
as epoch-millisecond integers, markets as the single string produced by
validate_markets — with one exception: PriceHistoryQuery.frequency_type is
stored as the FrequencyType member returned by validate_frequency_type, not
as its wire string.  Fields the caller omitted bypass the validators and
keep their raw defaults, so defaulted enum-typed fields also hold enum
members (contract_type, strategy, option_range, expiration_month,
option_type and period_type keep their default members, an absent
frequency_type stays None).  The theorem states this for every record of
every endpoint. -/
theorem c3_amended_canonical_fields :
    (∀ (i : InstrumentsQueryInput) (r : InstrumentsQueryRec),
        validateInstruments i = .ok r → ∃ e, r.projection = Projections.value e)
    ∧ (∀ (i : MoversQueryInput) (r : MoversQueryRec), validateMovers i = .ok r →
        (∃ e, r.index = MoversIndex.value e)
        ∧ (∃ e, r.direction = MoversDirection.value e)
        ∧ (∃ e, r.change = MoversChange.value e))
    ∧ (∀ (i : MarketHoursQueryInput) (r : MarketHoursQueryRec),
        validateMarketHours i = .ok r →
        validate_markets i.markets = .ok r.markets
        ∧ (∀ v, i.date_time = some v → ∃ n, r.date_time = some n)
        ∧ (i.date_time = none → r.date_time = none))
    ∧ (∀ (i : OptionChainQueryInput) (r : OptionChainQueryRec),
        validateOptionChain i = .ok r →
        (∀ v, i.contract_type = some v → ∃ e, r.contract_type = .str (ContractType.value e))
        ∧ (i.contract_type = none → r.contract_type = .member .ALL)
        ∧ (∀ v, i.strategy = some v → ∃ e, r.strategy = .str (StrategyType.value e))
        ∧ (i.strategy = none → r.strategy = .member .SINGLE)
        ∧ (∀ v, i.option_range = some v → ∃ e, r.option_range = .str (OptionRange.value e))
        ∧ (i.option_range = none → r.option_range = .member .ALL)
        ∧ (∀ v, i.expiration_month = some v →
            ∃ e, r.expiration_month = .str (ExpirationMonth.value e))
        ∧ (i.expiration_month = none → r.expiration_month = .member .ALL)
        ∧ (∀ v, i.option_type = some v → ∃ e, r.option_type = .str (OptionType.value e))
        ∧ (i.option_type = none → r.option_type = .member .ALL)
        ∧ (∀ v, i.from_date = some v → ∃ n, r.from_date = some n)
        ∧ (∀ v, i.to_date = some v → ∃ n, r.to_date = some n))
    ∧ (∀ (i : PriceHistoryQueryInput) (r : PriceHistoryQueryRec),
        validatePriceHistory i = .ok r →
        (∀ v, i.period_type = some v → ∃ e, r.period_type = .str (PeriodType.value e))
        ∧ (i.period_type = none → r.period_type = .member .DAY)
        ∧ (∀ v, i.frequency_type = some v → ∃ e, r.frequency_type = some (.member e))
        ∧ (i.frequency_type = none → r.frequency_type = none)
        ∧ (∀ v, i.start_date = some v → ∃ n, r.start_date = some n)
        ∧ (∀ v, i.end_date = some v → ∃ n, r.end_date = some n)) := by
  refine ⟨?_, ?_, ?_, ?_, ?_⟩
  · intro i r h
    simp only [validateInstruments] at h
    obtain ⟨p, hp, hr⟩ := (except_map_ok _ _ _).mp h
    obtain ⟨e, he⟩ := validate_str_enum_ok_shape _ _ _ _ hp
    subst hr
    exact ⟨e, he⟩
  · intro i r h
    simp only [validateMovers] at h
    obtain ⟨ix, hix, h⟩ := (except_bind_ok _ _ _).mp h
    obtain ⟨dir, hdir, h⟩ := (except_bind_ok _ _ _).mp h
    obtain ⟨ch, hch, h⟩ := (except_bind_ok _ _ _).mp h
    have hrec := Except.ok.inj h
    subst hrec
    obtain ⟨e1, he1⟩ := validate_str_enum_ok_shape _ _ _ _ hix
    obtain ⟨e2, he2⟩ := validate_str_enum_ok_shape _ _ _ _ hdir
    obtain ⟨e3, he3⟩ := validate_str_enum_ok_shape _ _ _ _ hch
    exact ⟨⟨e1, he1⟩, ⟨e2, he2⟩, ⟨e3, he3⟩⟩
  · intro i r h
    simp only [validateMarketHours] at h
    obtain ⟨m, hm, h⟩ := (except_bind_ok _ _ _).mp h
    obtain ⟨d, hd, h⟩ := (except_bind_ok _ _ _).mp h
    have hrec := Except.ok.inj h
    subst hrec
    have hshape := stepDateField_ok_shape _ _ _ hd
    exact ⟨hm, hshape.1, hshape.2⟩
  · intro i r h
    simp only [validateOptionChain] at h
    obtain ⟨ct, hct, h⟩ := (except_bind_ok _ _ _).mp h
    obtain ⟨st, hst, h⟩ := (except_bind_ok _ _ _).mp h
    obtain ⟨orange, hor, h⟩ := (except_bind_ok _ _ _).mp h
    obtain ⟨fd, hfd, h⟩ := (except_bind_ok _ _ _).mp h
    obtain ⟨td, htd, h⟩ := (except_bind_ok _ _ _).mp h
    obtain ⟨u1, hu1, h⟩ := (except_bind_ok _ _ _).mp h
    obtain ⟨u2, hu2, h⟩ := (except_bind_ok _ _ _).mp h
    obtain ⟨u3, hu3, h⟩ := (except_bind_ok _ _ _).mp h
    obtain ⟨u4, hu4, h⟩ := (except_bind_ok _ _ _).mp h
    obtain ⟨em, hem, h⟩ := (except_bind_ok _ _ _).mp h
    obtain ⟨ot, hot, h⟩ := (except_bind_ok _ _ _).mp h
    have hrec := Except.ok.inj h
    subst hrec
    simp only [stepContractType] at hct
    simp only [stepStrategy] at hst
    simp only [stepOptionRange] at hor
    simp only [stepExpirationMonth] at hem
    simp only [stepOptionType] at hot
    have hCT := stepEnumField_ok_shape _ _ _ _ _ hct
    have hST := stepEnumField_ok_shape _ _ _ _ _ hst
    have hOR := stepEnumField_ok_shape _ _ _ _ _ hor
    have hEM := stepEnumField_ok_shape _ _ _ _ _ hem
    have hOT := stepEnumField_ok_shape _ _ _ _ _ hot
    exact ⟨hCT.1, hCT.2, hST.1, hST.2, hOR.1, hOR.2, hEM.1, hEM.2, hOT.1, hOT.2,
      (stepDateField_ok_shape _ _ _ hfd).1, (stepDateField_ok_shape _ _ _ htd).1⟩
  · intro i r h
    simp only [validatePriceHistory] at h
    obtain ⟨pt, hpt, h⟩ := (except_bind_ok _ _ _).mp h
    obtain ⟨per, hper, h⟩ := (except_bind_ok _ _ _).mp h
    obtain ⟨ft, hft, h⟩ := (except_bind_ok _ _ _).mp h
    obtain ⟨fr, hfr, h⟩ := (except_bind_ok _ _ _).mp h
    obtain ⟨sd, hsd, h⟩ := (except_bind_ok _ _ _).mp h
    obtain ⟨ed, hed, h⟩ := (except_bind_ok _ _ _).mp h
    have hrec := Except.ok.inj h
    subst hrec
    simp only [stepPeriodType] at hpt
    have hPT := stepEnumField_ok_shape _ _ _ _ _ hpt
    refine ⟨hPT.1, hPT.2, ?_, ?_, ?_, ?_⟩
    · intro v hv
      rw [hv] at hft
      simp only [stepFrequencyType] at hft
      obtain ⟨s, hs, hft⟩ := (except_bind_ok _ _ _).mp hft
      obtain ⟨e, he, hft⟩ := (except_bind_ok _ _ _).mp hft
      exact ⟨e, (Except.ok.inj hft).symm⟩
    · intro hn
      rw [hn] at hft
      simp only [stepFrequencyType] at hft
      exact (Except.ok.inj hft).symm
    · intro v hv
      rw [hv] at hsd
      simp only [stepStartDate, Bind.bind, Except.bind, validate_dates_period] at hsd
      obtain ⟨n, hn⟩ := convert_some_ok_shape _ _ _ hsd
      exact ⟨n, hn⟩
    · intro v hv
      rw [hv] at hed
      simp only [stepEndDate, Bind.bind, Except.bind, validate_dates_period] at hed
      obtain ⟨n, hn⟩ := convert_some_ok_shape _ _ _ hed
      exact ⟨n, hn⟩

/-- Claim C3 amended witness: a concrete successful PriceHistoryQuery
validation with supplied period_type, frequency_type and start_date, whose
stored frequency_type is a member. -/
theorem c3_amended_canonical_fields_witness :
    ∃ e, (⟨none, "AAPL", .str "MONTH", none, some (.member .DAILY), none,
      some 5, none, true⟩ : PriceHistoryQueryRec).frequency_type
      = some (.member e) :=
  (c3_amended_canonical_fields.2.2.2.2
    { symbol := "AAPL", period_type := some (.str "MONTH"),
      frequency_type := some (.str "DAILY"), start_date := some (.epoch 5) }
    ⟨none, "AAPL", .str "MONTH", none, some (.member .DAILY), none,
      some 5, none, true⟩ (by decide)).2.2.1 (.str "DAILY") rfl

end TDQuery

namespace TDQuery

theorem find_ci_first {α : Type} (val : α → String) (s : String) (l : List α) :
    ∀ e : α, e ∈ l →
      (l.map (fun x => lowerStr (val x))).Nodup →
      lowerStr s = lowerStr (val e) →
      l.find? (fun x => lowerStr (val x) == lowerStr s) = some e := by
  induction l with
  | nil => intro e he; exact absurd he (List.not_mem_nil e)
  | cons x xs ih =>
    intro e he hnd hs
    by_cases hx : lowerStr (val x) = lowerStr s
    · have hb : (lowerStr (val x) == lowerStr s) = true := beq_iff_eq.mpr hx
      have hfind : (x :: xs).find? (fun y => lowerStr (val y) == lowerStr s) = some x := by
        simp [List.find?, hb]
      rw [hfind]
      rcases List.mem_cons.mp he with rfl | hmem
      · rfl
      · exfalso
        have hin : lowerStr (val e) ∈ xs.map (fun y => lowerStr (val y)) :=
          List.mem_map_of_mem _ hmem
        have hx2 : lowerStr (val x) ∉ xs.map (fun y => lowerStr (val y)) :=
          (List.nodup_cons.mp hnd).1
        exact hx2 ((hx.trans hs).symm ▸ hin)
    · have hb : (lowerStr (val x) == lowerStr s) = false := beq_eq_false_iff_ne.mpr hx
      have hfind : (x :: xs).find? (fun y => lowerStr (val y) == lowerStr s)
          = xs.find? (fun y => lowerStr (val y) == lowerStr s) := by
        simp [List.find?, hb]
      rw [hfind]
      have hmem : e ∈ xs := by
        rcases List.mem_cons.mp he with rfl | hmem
        · exact absurd hs.symm hx
        · exact hmem
      exact ih e hmem (List.nodup_cons.mp hnd).2 hs

/-- Claim C8: the Enum Normalizer maps a native member to its canonical wire
string, maps any string that case-insensitively matches a canonical value of
a member (the canonical string itself or any case variant) to that same
canonical wire string, and rejects any other string with InvalidEnumValue
carrying the field name, the offending value and the accepted values; the
hypothesis asks the domain values to be distinct up to case, which every
domain of this model satisfies.  Every enum-typed field of the query models
(projection, index, direction, change, contract_type, strategy, range,
expiration_month, option_type, period_type, frequency_type) routes through
this one function. -/
theorem c8_enum_normalizer {α : Type} (E : EnumSpec α) (field : String)
    (hnd : (E.members.map (fun e => lowerStr (E.value e))).Nodup) :
    (∀ e : α, validate_str_enum field E (.member e) = .ok (E.value e))
    ∧ (∀ (s : String) (e : α), e ∈ E.members → lowerStr s = lowerStr (E.value e) →
        validate_str_enum field E (.str s) = .ok (E.value e))
    ∧ (∀ s : String, (∀ e ∈ E.members, lowerStr s ≠ lowerStr (E.value e)) →
        validate_str_enum field E (.str s)
          = .error (.invalidEnumValue field s (E.members.map E.value))) := by
  refine ⟨fun e => rfl, ?_, ?_⟩
  · intro s e he hs
    have hfind : lookupCI E s = some e := find_ci_first E.value s E.members e he hnd hs
    simp [validate_str_enum, hfind]
  · intro s hs
    have hfind : lookupCI E s = none := by
      unfold lookupCI
      apply List.find?_eq_none.mpr
      intro x hx hc
      exact hs x hx (beq_iff_eq.mp hc).symm
    simp [validate_str_enum, hfind]

/-- Claim C8 witness: a lower-case variant of the canonical FUNDAMENTAL projection
normalizes to the canonical wire string. -/
theorem c8_enum_normalizer_witness :
    validate_str_enum "projection" Projections.spec (.str "fundamental")
      = .ok "FUNDAMENTAL" := by
  have h := (c8_enum_normalizer Projections.spec "projection" (by decide)).2.1
    "fundamental" .FUNDAMENTAL (by decide) (by decide)
  exact h

end TDQuery

namespace TDQuery

/-- Claim C9: the shared Date/Time Normalizer lets None pass through, returns a
numeric epoch timestamp unchanged, sends a date to the epoch milliseconds of
its midnight UTC (so a date, the corresponding midnight datetime and any
ISO-8601 string parsing to the same instant all produce the identical
integer), rejects an unparsable string or a wrong type with
InvalidDateFormat, and is the single function behind the date steps of every
endpoint (market hours date_time, option chain from_date and to_date, price
history start_date and end_date). -/
theorem c9_date_normalizer :
    (∀ f, convert_to_unix_time_ms f none = .ok none)
    ∧ (∀ f n, convert_to_unix_time_ms f (some (.epoch n)) = .ok (some n))
    ∧ (∀ f d, convert_to_unix_time_ms f (some (.dateOnly d))
        = convert_to_unix_time_ms f (some (.datetime (midnight d))))
    ∧ (∀ f s v, parseIso s = some v →
        convert_to_unix_time_ms f (some (.iso s))
          = convert_to_unix_time_ms f (some (.datetime v)))
    ∧ (∀ f s, parseIso s = none →
        convert_to_unix_time_ms f (some (.iso s)) = .error (.invalidDateFormat f s))
    ∧ (∀ f t, convert_to_unix_time_ms f (some (.other t)) = .error (.invalidDateFormat f t))
    ∧ validate_iso_date_field = convert_to_unix_time_ms
    ∧ (∀ f v, stepDateField f (some v) = validate_iso_date_field f (some v))
    ∧ (∀ v, stepStartDate (some v) = convert_to_unix_time_ms "start_date" (some v))
    ∧ (∀ v, stepEndDate (some v) = convert_to_unix_time_ms "end_date" (some v)) := by
  refine ⟨fun f => rfl, fun f n => rfl, fun f d => rfl, ?_, ?_, fun f t => rfl, rfl,
    fun f v => rfl, fun v => rfl, fun v => rfl⟩
  · intro f s v h
    simp only [convert_to_unix_time_ms, h]
  · intro f s h
    simp only [convert_to_unix_time_ms, h]

/-- Claim C9 witness: the ISO string 2022-01-02, the date (2022, 1, 2) and its
midnight datetime all normalize to the same epoch-millisecond integer. -/
theorem c9_date_normalizer_witness :
    parseIso "2022-01-02" = some (midnight ⟨2022, 1, 2⟩)
    ∧ convert_to_unix_time_ms "start_date" (some (.iso "2022-01-02"))
        = convert_to_unix_time_ms "start_date" (some (.datetime (midnight ⟨2022, 1, 2⟩)))
    ∧ convert_to_unix_time_ms "start_date" (some (.datetime (midnight ⟨2022, 1, 2⟩)))
        = .ok (some 1641081600000) := by
  refine ⟨by decide, ?_, by decide⟩
  exact c9_date_normalizer.2.2.2.1 "start_date" "2022-01-02" (midnight ⟨2022, 1, 2⟩)
    (by decide)

theorem checkMarketParts_ok (l : List String) (h : ∀ p ∈ l, p ∈ Markets.all_values) :
    checkMarketParts l = .ok () := by
  induction l with
  | nil => rfl
  | cons x xs ih =>
    have hx := h x (List.mem_cons_self x xs)
    unfold checkMarketParts
    rw [if_pos hx]
    exact ih (fun p hp => h p (List.mem_cons_of_mem x hp))

theorem checkMarketList_strs (l : List String) (h : ∀ x ∈ l, x ∈ Markets.all_values) :
    checkMarketList (l.map .str) = .ok () := by
  induction l with
  | nil => rfl
  | cons x xs ih =>
    have hx := h x (List.mem_cons_self x xs)
    simp only [List.map_cons]
    unfold checkMarketList
    rw [if_pos hx]
    exact ih (fun p hp => h p (List.mem_cons_of_mem x hp))

theorem joinMarkets_strs (l : List String) :
    joinMarkets (l.map .str) = .ok (commaJoin l) := by
  induction l with
  | nil => rfl
  | cons x xs ih =>
    cases xs with
    | nil => rfl
    | cons y ys =>
      simp only [List.map_cons] at ih ⊢
      simp only [joinMarkets, ih, commaJoin, Bind.bind, Except.bind]

/-- Claim C10: validate_markets is the identity on a comma-delimited string whose
comma-split parts are all known market codes, and sends a list of known
market-code strings to their comma-join in input order. -/
theorem c10_markets_identity_and_join :
    (∀ s : String, (∀ p ∈ splitChar ',' s, p ∈ Markets.all_values) →
        validate_markets (.str s) = .ok s)
    ∧ (∀ l : List String, (∀ x ∈ l, x ∈ Markets.all_values) →
        validate_markets (.list (l.map .str)) = .ok (commaJoin l)) := by
  constructor
  · intro s h
    simp [validate_markets, checkMarketParts_ok _ h, Except.map]
  · intro l h
    simp [validate_markets, checkMarketList_strs l h, joinMarkets_strs l,
      Bind.bind, Except.bind]

/-- Claim C10 witness: the delimited string EQUITY,BOND is returned unchanged and
the list form joins to the same string. -/
theorem c10_markets_identity_and_join_witness :
    validate_markets (.str "EQUITY,BOND") = .ok "EQUITY,BOND"
    ∧ validate_markets (.list (["EQUITY", "BOND"].map .str)) = .ok "EQUITY,BOND" := by
  constructor
  · exact c10_markets_identity_and_join.1 "EQUITY,BOND" (by decide)
  · exact c10_markets_identity_and_join.2 ["EQUITY", "BOND"] (by decide)

end TDQuery
